import Mathlib

/-!
Shallow embedding of the persistence/reporting layer of the incident-tracker
repository (`database.py`, class `Database`), with theorems settling the
frozen claims about it.

Modelling conventions:
* The sqlite store is a pure value `DBState`: the three tables `users`
  (primary-keyed by name), `mistakes` and `comments`, plus the AUTOINCREMENT
  counter for mistake ids.
* Timestamps are abstract `Nat` ticks (larger = later); sqlite calendar
  arithmetic (`datetime('now', '-N days')`, `strftime`) is abstracted into a
  cutoff tick or a caller-supplied window predicate.
* SQL `LIKE '%t%'` is modelled as substring containment on the raw strings
  (case folding and the `%`/`_` metacharacters of LIKE are abstracted away).
* SQL aggregate `NULL` coalescing (`row[k] or 0` in the Python code, and
  `SUM(CASE ...)` over joined-null rows) is modelled by the corresponding
  filter lengths, which are `0` exactly where the source produces `0`.
* Each repository method becomes a function of the state (and, for mutators,
  returns the new state together with the Python return value).  The three
  methods that read the never-assigned attribute `self.cursor` are modelled
  over a `Database` object whose attribute set is the one `__init__` creates,
  so that the attribute lookup itself can fail.
-/

namespace Bazabot

/-- Row of the `mistakes` table: `id INTEGER PRIMARY KEY AUTOINCREMENT`,
`user TEXT`, `description TEXT`, `date TIMESTAMP`, `priority INTEGER DEFAULT 1`,
`closed INTEGER DEFAULT 0` (the 0/1 flag is modelled as `Bool`). -/
structure Mistake where
  id : Nat
  user : String
  description : String
  date : Nat
  priority : Int
  closed : Bool
deriving DecidableEq

/-- Row of the `comments` table: `id`, `mistake_id`, `user_id`, `text`, `date`. -/
structure Comment where
  id : Nat
  mistake_id : Nat
  user_id : Int
  text : String
  date : Nat
deriving DecidableEq

/-- The sqlite store: `users` (name is the primary key), `mistakes`,
`comments`, and the AUTOINCREMENT counter handing out the next mistake id. -/
structure DBState where
  users : List String
  mistakes : List Mistake
  comments : List Comment
  nextMistakeId : Nat
deriving DecidableEq

/-- Python `str.isdigit()`: nonempty and every character a digit. -/
def pyIsDigit (t : String) : Bool :=
  !t.data.isEmpty && t.data.all Char.isDigit

/-- SQL `LIKE '%pat%'` modelled as substring containment: some suffix of `s`
starts with `pat`. -/
def likeMatch (pat s : String) : Bool :=
  (List.range (s.data.length + 1)).any
    (fun i => (s.data.drop i).take pat.data.length == pat.data)

/-- The second bind parameter of the text filter in `search_mistakes`:
`params['text'] if params['text'].isdigit() else -1`, compared against the
INTEGER column `id` (sqlite numeric affinity turns a digit string into its
numeric value). -/
def sqlTextToIdParam (t : String) : Int :=
  if pyIsDigit t then ((t.toNat?).getD 0 : Int) else -1

/-- Query parameters accepted by `Database.search_mistakes` (each key of the
`**params` dict, absent = `none`). -/
structure SearchParams where
  user : Option String := none
  status : Option String := none
  priority : Option Int := none
  text : Option String := none
deriving DecidableEq

/-- The WHERE clause built by `search_mistakes`: present filters are
AND-combined; with no filters the clause is the constant `1` (true).
`status` binds `1 if params['status'] == 'closed' else 0` against `closed`;
`text` matches `(description LIKE ? OR id = ?)`. -/
def matchesParams (p : SearchParams) (m : Mistake) : Bool :=
  (match p.user with
   | none => true
   | some u => likeMatch u m.user) &&
  (match p.status with
   | none => true
   | some v => m.closed == decide (v = "closed")) &&
  (match p.priority with
   | none => true
   | some q => m.priority == q) &&
  (match p.text with
   | none => true
   | some t => likeMatch t m.description || (m.id : Int) == sqlTextToIdParam t)

/-- Relation of `ORDER BY date DESC` on mistakes. -/
def dateGe (a b : Mistake) : Prop := b.date ≤ a.date

instance : DecidableRel dateGe := fun a b => Nat.decLe b.date a.date

instance : IsTotal Mistake dateGe :=
  ⟨fun a b => (Nat.le_total b.date a.date).symm.symm⟩

instance : IsTrans Mistake dateGe :=
  ⟨fun _ _ _ hab hbc => Nat.le_trans hbc hab⟩

/-- Method `search_mistakes(**params)`: `SELECT * FROM mistakes WHERE <filters>
ORDER BY date DESC LIMIT 50`. -/
def search_mistakes (s : DBState) (p : SearchParams) : List Mistake :=
  ((s.mistakes.filter (matchesParams p)).insertionSort dateGe).take 50

/-- Method `mistake_exists(mistake_id)`:
`SELECT COUNT(*) FROM mistakes WHERE id = ?` compared with `> 0`. -/
def mistake_exists (s : DBState) (mistake_id : Nat) : Bool :=
  s.mistakes.any (fun m => m.id == mistake_id)

/-- Method `close_mistake(mistake_id)`: `UPDATE mistakes SET closed = 1 WHERE
id = ?`, commit, and return `True` (the except-branch returning `False` fires
only on a store-level `sqlite3.Error`, which the pure model does not raise). -/
def close_mistake (s : DBState) (mistake_id : Nat) : DBState × Bool :=
  ({ s with
      mistakes := s.mistakes.map
        (fun m => if m.id = mistake_id then { m with closed := true } else m) },
   true)

/-- Method `delete_user(name)`: count the user's rows with `closed = 0`;
if any, return `False` without touching the store; otherwise
`DELETE FROM users WHERE name = ?` and return `cursor.rowcount > 0`. -/
def delete_user (s : DBState) (name : String) : DBState × Bool :=
  let active_mistakes :=
    (s.mistakes.filter (fun m => m.user == name && !m.closed)).length
  if active_mistakes > 0 then
    (s, false)
  else
    let users' := s.users.filter (fun u => u != name)
    ({ s with users := users' }, decide (users'.length < s.users.length))

/-- Method `add_mistake(user, description, priority=1)`: a priority not in
`[1, 2]` is replaced by `1` before the INSERT; the row gets the next
AUTOINCREMENT id, the current timestamp, and `closed` defaulting to `0`;
returns `cursor.lastrowid`. -/
def add_mistake (s : DBState) (user description : String) (priority : Int)
    (now : Nat) : DBState × Option Nat :=
  let priority' := if priority = 1 ∨ priority = 2 then priority else 1
  let m : Mistake :=
    { id := s.nextMistakeId, user := user, description := description,
      date := now, priority := priority', closed := false }
  ({ s with mistakes := s.mistakes ++ [m], nextMistakeId := s.nextMistakeId + 1 },
   some m.id)

/-- Method `clear_mistakes()`: `DELETE FROM comments`, `DELETE FROM mistakes`,
commit, return `True` (the `False` branch fires only on a store-level error). -/
def clear_mistakes (s : DBState) : DBState × Bool :=
  ({ s with mistakes := [], comments := [] }, true)

/-- Count of rows with `closed = 0` among `ms` (`SUM(CASE WHEN closed = 0 THEN
1 ELSE 0 END)`, coalesced to 0 over an empty set). -/
def countActive (ms : List Mistake) : Nat :=
  (ms.filter (fun m => !m.closed)).length

/-- Count of rows with `closed = 1` among `ms`. -/
def countClosed (ms : List Mistake) : Nat :=
  (ms.filter (fun m => m.closed)).length

/-- Count of rows with the given priority among `ms`. -/
def countPriority (p : Int) (ms : List Mistake) : Nat :=
  (ms.filter (fun m => m.priority == p)).length

/-- Result shape of `get_status_stats`. -/
structure StatusStats where
  total : Nat
  active : Nat
  closed : Nat
deriving DecidableEq

/-- Method `get_status_stats()`: system-wide `COUNT(*)` and the two
`SUM(CASE ...)` counters, each coalesced with `or 0`. -/
def get_status_stats (s : DBState) : StatusStats :=
  ⟨s.mistakes.length, countActive s.mistakes, countClosed s.mistakes⟩

/-- The `GROUP BY user` fibers of a mistake list with their `COUNT(*)`,
keyed by the distinct user names occurring in it. -/
def groupCounts (ms : List Mistake) : List (String × Nat) :=
  ((ms.map (fun m => m.user)).dedup).map
    (fun u => (u, (ms.filter (fun m => m.user == u)).length))

/-- Relation of `ORDER BY count DESC` on `(user, count)` group rows. -/
def countGe (a b : String × Nat) : Prop := b.2 ≤ a.2

instance : DecidableRel countGe := fun a b => Nat.decLe b.2 a.2

instance : IsTotal (String × Nat) countGe :=
  ⟨fun a b => (Nat.le_total b.2 a.2).symm.symm⟩

instance : IsTrans (String × Nat) countGe :=
  ⟨fun _ _ _ hab hbc => Nat.le_trans hbc hab⟩

/-- The top-users query of the stats methods: `SELECT user, COUNT(*) FROM
mistakes [WHERE window] GROUP BY user ORDER BY count DESC LIMIT 5`. -/
def topUsers (ms : List Mistake) : List (String × Nat) :=
  ((groupCounts ms).insertionSort countGe).take 5

/-- The trailing-window predicate `date >= datetime('now', '-days days')`,
with the lower bound abstracted into a cutoff tick. -/
def inWindow (cutoff : Nat) (m : Mistake) : Bool :=
  decide (cutoff ≤ m.date)

/-- Result shape of `get_period_stats` / `get_all_stats`. -/
structure PeriodStats where
  total : Nat
  active : Nat
  closed : Nat
  priority_1 : Nat
  priority_2 : Nat
  priority_3 : Nat
  top_users : List (String × Nat)
deriving DecidableEq

/-- Method `get_period_stats(days)`: the six coalesced counters over the
mistakes inside the trailing window, plus the top-5 user ranking over the
same window. -/
def get_period_stats (s : DBState) (cutoff : Nat) : PeriodStats :=
  let ms := s.mistakes.filter (inWindow cutoff)
  ⟨ms.length, countActive ms, countClosed ms,
   countPriority 1 ms, countPriority 2 ms, countPriority 3 ms, topUsers ms⟩

/-- Method `get_all_stats()`: the same shape as `get_period_stats` with no
date restriction. -/
def get_all_stats (s : DBState) : PeriodStats :=
  ⟨s.mistakes.length, countActive s.mistakes, countClosed s.mistakes,
   countPriority 1 s.mistakes, countPriority 2 s.mistakes,
   countPriority 3 s.mistakes, topUsers s.mistakes⟩

/-- Row shape of `get_users_stats`: `u.name`, `active`, `closed`, `total`. -/
structure UserStatsRow where
  name : String
  active : Nat
  closed : Nat
  total : Nat
deriving DecidableEq

/-- Method `get_users_stats()`: `users LEFT JOIN mistakes ON u.name = m.user
GROUP BY u.name ORDER BY u.name`.  Since `name` is the primary key of `users`,
each group is one user row joined with exactly that user's mistakes; for a user
with no mistakes the join row is all-NULL, so both `SUM(CASE ...)` counters and
`COUNT(m.id)` evaluate to 0. -/
def get_users_stats (s : DBState) : List UserStatsRow :=
  (s.users.dedup.insertionSort (fun a b => a ≤ b)).map
    (fun u =>
      let ms := s.mistakes.filter (fun m => m.user == u)
      ⟨u, countActive ms, countClosed ms, ms.length⟩)

/-- Value shape stored per user by `get_mistake_stats` (`total`, `active`,
`closed`, each coalesced with `or 0`). -/
structure MistakeStats where
  total : Nat
  active : Nat
  closed : Nat
deriving DecidableEq

/-- First pass of `get_mistake_stats`: `SELECT m.user, COUNT(*), SUM(...),
SUM(...) FROM mistakes m GROUP BY m.user ORDER BY m.user`, kept in the dict
only when `row[0]` is truthy (the Python guard `if row[0]:` skips a falsy user
name, modelled by the empty string). -/
def mistakeGroups (s : DBState) : List (String × MistakeStats) :=
  ((s.mistakes.map (fun m => m.user)).dedup.insertionSort (fun a b => a ≤ b)).filterMap
    (fun u =>
      if u = "" then none
      else
        let ms := s.mistakes.filter (fun m => m.user == u)
        some (u, ⟨ms.length, countActive ms, countClosed ms⟩))

/-- Method `get_mistake_stats()`: the grouped first pass, then every user from
`SELECT name FROM users` that is not yet a key of the dict is added with
all-zero counters. -/
def get_mistake_stats (s : DBState) : List (String × MistakeStats) :=
  mistakeGroups s ++
    (s.users.filter
        (fun u => !((mistakeGroups s).any (fun e => e.1 == u)))).map
      (fun u => (u, ⟨0, 0, 0⟩))

/-- Python runtime error raised by reading an attribute the object does not
have. -/
inductive PyError where
  | attributeError (attr : String)
deriving DecidableEq

/-- The `Database` object with the attribute set `__init__` creates: it
assigns `self.db_path`, `self.conn` (with the tables ensured), and
`self.mistakes_cache`; the attribute `self.cursor` is never assigned anywhere
in the class, so its slot is modelled as an `Option` that `__init__` leaves
empty. -/
structure Database where
  db_path : String
  state : DBState
  cursor : Option Unit
deriving DecidableEq

/-- Constructor `Database.__init__(db_path)`: connects to the persisted state
and initialises the cache; it does not assign `self.cursor`. -/
def Database.connect (db_path : String) (persisted : DBState) : Database :=
  { db_path := db_path, state := persisted, cursor := none }

/-- Attribute lookup `self.cursor`, which raises `AttributeError` when the
attribute was never assigned. -/
def Database.getCursorAttr (db : Database) : Except PyError Unit :=
  match db.cursor with
  | some c => .ok c
  | none => .error (.attributeError "cursor")

/-- Row shape of the week/month listings: `m.id, u.name, m.description,
m.date, m.closed`. -/
structure ListingRow where
  id : Nat
  name : String
  description : String
  date : Nat
  closed : Bool
deriving DecidableEq

/-- Relation of `ORDER BY m.date DESC` on listing rows. -/
def rowDateGe (a b : ListingRow) : Prop := b.date ≤ a.date

instance : DecidableRel rowDateGe := fun a b => Nat.decLe b.date a.date

/-- The inner `JOIN users u ON m.user = u.name` of the listing queries. -/
def joinUsers (s : DBState) (ms : List Mistake) : List ListingRow :=
  ms.flatMap
    (fun m =>
      (s.users.filter (fun u => u == m.user)).map
        (fun u => ⟨m.id, u, m.description, m.date, m.closed⟩))

/-- Method `get_week_mistakes(year, week)`: evaluates `self.cursor`, which was
never assigned, before any query runs; the query itself (join with users,
current-ISO-week window on `m.date`, `ORDER BY m.date DESC`) is modelled with
the calendar window abstracted into the predicate `inCurrentWeek`. -/
def get_week_mistakes (db : Database) (inCurrentWeek : Nat → Bool) :
    Except PyError (List ListingRow) := do
  let _ ← db.getCursorAttr
  pure ((joinUsers db.state (db.state.mistakes.filter
          (fun m => inCurrentWeek m.date))).insertionSort rowDateGe)

/-- Method `get_month_mistakes(year, month)`: also evaluates the never-assigned
`self.cursor` first; the `strftime` year/month equality test is abstracted into
the predicate `inMonth`. -/
def get_month_mistakes (db : Database) (inMonth : Nat → Bool) :
    Except PyError (List ListingRow) := do
  let _ ← db.getCursorAttr
  pure (joinUsers db.state (db.state.mistakes.filter (fun m => inMonth m.date)))

/-- Method `get_user_detailed_stats(user_name)`: also evaluates the
never-assigned `self.cursor` first; the per-month grouping of the user's
mistakes is modelled with `strftime('%Y-%m', date)` abstracted into `monthOf`
(ordering of the groups and the all-NULL join row of a mistake-free user are
immaterial here and elided). -/
def get_user_detailed_stats (db : Database) (user_name : String)
    (monthOf : Nat → String) : Except PyError (List (String × Nat × Nat × Nat)) := do
  let _ ← db.getCursorAttr
  let ms := db.state.mistakes.filter (fun m => m.user == user_name)
  pure (((ms.map (fun m => monthOf m.date)).dedup).map
    (fun mo =>
      let inMo := ms.filter (fun m => monthOf m.date == mo)
      (mo, countActive inMo, countClosed inMo, inMo.length)))

/-- Fresh store right after `create_tables` on a new file: every table empty,
the AUTOINCREMENT counter at 1. -/
def emptyDB : DBState := ⟨[], [], [], 1⟩

/-- Store with one staff member owning one open mistake. -/
def oneMistakeDB : DBState :=
  ⟨["alice"], [⟨1, "alice", "late delivery", 10, 1, false⟩], [], 2⟩

/-- Store with six staff members, each owning exactly one mistake. -/
def sixUsersDB : DBState :=
  ⟨["a", "b", "c", "d", "e", "f"],
   [⟨1, "a", "m1", 1, 1, false⟩, ⟨2, "b", "m2", 2, 1, false⟩,
    ⟨3, "c", "m3", 3, 1, false⟩, ⟨4, "d", "m4", 4, 1, false⟩,
    ⟨5, "e", "m5", 5, 1, false⟩, ⟨6, "f", "m6", 6, 1, false⟩],
   [], 7⟩

/-- Filtering a list strictly shrinks it as soon as one member fails the
predicate. -/
theorem length_filter_lt_of_mem_not {α : Type} (l : List α) (p : α → Bool)
    (a : α) (ha : a ∈ l) (hpa : p a = false) :
    (l.filter p).length < l.length := by
  induction l with
  | nil => cases ha
  | cons b l ih =>
    rcases List.mem_cons.mp ha with rfl | h
    · rw [List.filter_cons, hpa]
      exact Nat.lt_succ_of_le (List.length_filter_le p l)
    · rw [List.filter_cons]
      by_cases hb : p b
      · simp only [hb, if_pos, List.length_cons]
        exact Nat.succ_lt_succ (ih h)
      · simp only [Bool.not_eq_true] at hb
        simp only [hb, Bool.false_eq_true, if_neg, not_false_iff]
        exact Nat.lt_succ_of_lt (ih h)

/-- Claim C1 (status: code_bug).  The spec says no exception escapes any
repository method, naming the week-listing, month-listing and detailed
user-stats operations; but those three methods read `self.cursor`, an
attribute `__init__` never assigns (every other method obtains a cursor via
`self.conn.cursor()`), so each of them raises `AttributeError` on every call,
whatever the persisted state and query window. -/
theorem C1_broken_cursor_methods_raise (path : String) (s : DBState)
    (wk mo : Nat → Bool) (mn : Nat → String) (u : String) :
    get_week_mistakes (Database.connect path s) wk =
      .error (.attributeError "cursor") ∧
    get_month_mistakes (Database.connect path s) mo =
      .error (.attributeError "cursor") ∧
    get_user_detailed_stats (Database.connect path s) u mn =
      .error (.attributeError "cursor") :=
  ⟨rfl, rfl, rfl⟩

/-- Claim C2, counterexample.  On the fresh store, id 1 does not exist, yet
`close_mistake 1` reports success: the UPDATE matches no rows and the method
returns `True` regardless, so "closing a nonexistent incident id reports
failure (returns false)" is false as stated. -/
theorem C2_counterexample :
    mistake_exists emptyDB 1 = false ∧ (close_mistake emptyDB 1).2 = true :=
  ⟨rfl, rfl⟩

/-- Claim C2, amended.  `close_mistake` returns `true` for every id, existing
or not (the nonexistence check lives in the caller via `mistake_exists`, not
in the repository method); on a nonexistent id the store is unchanged; every
existing incident with the id ends up closed, all other rows are untouched,
and a second call on the already-closed incident again returns `true` with no
state change. -/
theorem C2_close_unconditional_success (s : DBState) (i : Nat) :
    (close_mistake s i).2 = true ∧
    (close_mistake s i).1.users = s.users ∧
    (close_mistake s i).1.comments = s.comments ∧
    close_mistake (close_mistake s i).1 i = ((close_mistake s i).1, true) ∧
    (mistake_exists s i = false → (close_mistake s i).1.mistakes = s.mistakes) ∧
    (∀ m ∈ s.mistakes, m.id = i →
      { m with closed := true } ∈ (close_mistake s i).1.mistakes) ∧
    (∀ m ∈ s.mistakes, m.id ≠ i → m ∈ (close_mistake s i).1.mistakes) := by
  refine ⟨rfl, rfl, rfl, ?_, ?_, ?_, ?_⟩
  · have h : ((close_mistake s i).1.mistakes.map
        (fun m => if m.id = i then { m with closed := true } else m)) =
        (close_mistake s i).1.mistakes := by
      show (s.mistakes.map _).map _ = s.mistakes.map _
      rw [List.map_map]
      refine List.map_congr_left ?_
      intro m _
      by_cases hm : m.id = i
      · simp [Function.comp, hm]
      · simp [Function.comp, hm]
    show (⟨_, true⟩ : DBState × Bool) = (_, true)
    rw [Prod.mk.injEq]
    refine ⟨?_, rfl⟩
    show ({ (close_mistake s i).1 with mistakes := _ } : DBState) = _
    rw [h]
  · intro hne
    have hall : ∀ m ∈ s.mistakes, m.id ≠ i := by
      intro m hm hmi
      have : s.mistakes.any (fun m => m.id == i) = true :=
        List.any_eq_true.mpr ⟨m, hm, by simp [hmi]⟩
      simp [mistake_exists] at hne
      exact absurd hmi (hne m hm)
    show s.mistakes.map _ = s.mistakes
    have : ∀ m ∈ s.mistakes,
        (if m.id = i then { m with closed := true } else m) = id m := by
      intro m hm
      simp [hall m hm]
    rw [List.map_congr_left this, List.map_id]
  · intro m hm hmi
    have : (if m.id = i then { m with closed := true } else m) =
        { m with closed := true } := by simp [hmi]
    exact this ▸ List.mem_map_of_mem _ hm
  · intro m hm hmi
    have : (if m.id = i then { m with closed := true } else m) = m := by
      simp [hmi]
    exact this ▸ List.mem_map_of_mem _ hm

/-- Claim C2, witness for the amended theorem at a concrete input: the store
holding one open mistake with id 1, which exists, gets closed with success. -/
theorem C2_witness :
    (⟨1, "alice", "late delivery", 10, 1, false⟩ : Mistake) ∈
        oneMistakeDB.mistakes ∧
    (⟨1, "alice", "late delivery", 10, 1, false⟩ : Mistake).id = 1 ∧
    ({ (⟨1, "alice", "late delivery", 10, 1, false⟩ : Mistake) with
        closed := true } ∈ (close_mistake oneMistakeDB 1).1.mistakes) :=
  ⟨by decide, rfl,
    (C2_close_unconditional_success oneMistakeDB 1).2.2.2.2.2.1
      ⟨1, "alice", "late delivery", 10, 1, false⟩ (by decide) rfl⟩

/-- Claim C7 (status: confirmed).  `add_mistake` appends exactly one row,
returns its id, and the stored priority is always 1 or 2: an argument of 2 is
kept (CRITICAL), anything other than 1 or 2 is silently coerced to 1
(NORMAL). -/
theorem C7_add_mistake_priority (s : DBState) (u d : String) (p : Int)
    (now : Nat) :
    ∃ m : Mistake,
      (add_mistake s u d p now).1.mistakes = s.mistakes ++ [m] ∧
      (add_mistake s u d p now).2 = some m.id ∧
      (m.priority = 1 ∨ m.priority = 2) ∧
      (p = 2 → m.priority = 2) ∧
      ((p ≠ 1 ∧ p ≠ 2) → m.priority = 1) := by
  refine ⟨_, rfl, rfl, ?_, ?_, ?_⟩
  · by_cases h : p = 1 ∨ p = 2
    · show (if p = 1 ∨ p = 2 then p else 1) = 1 ∨
        (if p = 1 ∨ p = 2 then p else 1) = 2
      rw [if_pos h]; exact h
    · show (if p = 1 ∨ p = 2 then p else 1) = 1 ∨
        (if p = 1 ∨ p = 2 then p else 1) = 2
      rw [if_neg h]; exact Or.inl rfl
  · intro h2
    show (if p = 1 ∨ p = 2 then p else 1) = 2
    rw [if_pos (Or.inr h2)]; exact h2
  · intro hneither
    show (if p = 1 ∨ p = 2 then p else 1) = 1
    rw [if_neg]
    rintro (h | h)
    · exact hneither.1 h
    · exact hneither.2 h

/-- Claim C7, witness: adding a priority-3 mistake to the fresh store yields a
stored priority of 1. -/
theorem C7_witness :
    ∃ m : Mistake,
      (add_mistake emptyDB "alice" "oops" 3 5).1.mistakes =
          emptyDB.mistakes ++ [m] ∧
      (add_mistake emptyDB "alice" "oops" 3 5).2 = some m.id ∧
      (m.priority = 1 ∨ m.priority = 2) ∧
      ((3 : Int) = 2 → m.priority = 2) ∧
      (((3 : Int) ≠ 1 ∧ (3 : Int) ≠ 2) → m.priority = 1) :=
  C7_add_mistake_priority emptyDB "alice" "oops" 3 5

/-- Claim C9 (status: confirmed).  `clear_mistakes` empties the mistakes and
comments tables, leaves the staff table exactly as it was, and returns `true`
for every prior state — in particular also when there was nothing to
delete. -/
theorem C9_clear_mistakes_frame (s : DBState) :
    (clear_mistakes s).2 = true ∧
    (clear_mistakes s).1.mistakes = [] ∧
    (clear_mistakes s).1.comments = [] ∧
    (clear_mistakes s).1.users = s.users :=
  ⟨rfl, rfl, rfl, rfl⟩

/-- Claim C10 (status: confirmed).  A present status filter with any value
other than the exact string "closed" binds `closed = 0`: the search result is
identical to filtering with "open", and every returned row is open — the
unrecognized value is neither rejected nor ignored. -/
theorem C10_status_filter (s : DBState) (p : SearchParams) (v : String)
    (hv : v ≠ "closed") :
    search_mistakes s { p with status := some v } =
      search_mistakes s { p with status := some "open" } ∧
    ∀ m ∈ search_mistakes s { p with status := some v }, m.closed = false := by
  have h1 : decide (v = "closed") = false := decide_eq_false hv
  have h2 : decide (("open" : String) = "closed") = false := by decide
  constructor
  · show ((s.mistakes.filter _).insertionSort dateGe).take 50 =
      ((s.mistakes.filter _).insertionSort dateGe).take 50
    rw [List.filter_congr]
    intro m _
    simp only [matchesParams, h1, h2]
  · intro m hm
    have hsort : m ∈ (s.mistakes.filter
        (matchesParams { p with status := some v })).insertionSort dateGe :=
      (List.take_sublist 50 _).subset hm
    have hfil : m ∈ s.mistakes.filter
        (matchesParams { p with status := some v }) :=
      (List.mem_insertionSort dateGe).mp hsort
    have hcond := (List.mem_filter.mp hfil).2
    simp only [matchesParams, h1, Bool.and_eq_true, beq_iff_eq] at hcond
    exact hcond.1.1.2

/-- Claim C10, witness: the misspelled status value "Closed" on the store with
one open mistake behaves exactly like "open" and returns only open rows. -/
theorem C10_witness :
    ("Closed" : String) ≠ "closed" ∧
    (search_mistakes oneMistakeDB ⟨none, some "Closed", none, none⟩ =
       search_mistakes oneMistakeDB ⟨none, some "open", none, none⟩ ∧
     ∀ m ∈ search_mistakes oneMistakeDB ⟨none, some "Closed", none, none⟩,
       m.closed = false) :=
  ⟨by decide,
   C10_status_filter oneMistakeDB ⟨none, none, none, none⟩ "Closed" (by decide)⟩

/-- Claim C4 (status: confirmed).  Every search result holds at most 50 rows
and is ordered by creation time descending; with no filters and at most 50
stored incidents the result contains exactly the stored incidents — the cap
truncates silently instead of erroring. -/
theorem C4_search_cap_and_order (s : DBState) (p : SearchParams) :
    (search_mistakes s p).length ≤ 50 ∧
    List.Sorted dateGe (search_mistakes s p) ∧
    (s.mistakes.length ≤ 50 →
      ∀ m, m ∈ search_mistakes s ⟨none, none, none, none⟩ ↔
        m ∈ s.mistakes) := by
  refine ⟨?_, ?_, ?_⟩
  · show (List.take 50 _).length ≤ 50
    rw [List.length_take]
    exact Nat.min_le_left _ _
  · exact List.Pairwise.sublist (List.take_sublist 50 _)
      (List.sorted_insertionSort dateGe _)
  · intro hlen m
    have hfil : s.mistakes.filter (matchesParams ⟨none, none, none, none⟩) =
        s.mistakes :=
      List.filter_eq_self.mpr (fun a _ => rfl)
    have hs : search_mistakes s ⟨none, none, none, none⟩ =
        (s.mistakes.insertionSort dateGe).take 50 := by
      show ((s.mistakes.filter _).insertionSort dateGe).take 50 = _
      rw [hfil]
    rw [hs, List.take_of_length_le]
    · exact List.mem_insertionSort dateGe
    · rw [List.length_insertionSort]
      exact hlen

/-- Claim C4, witness: on the one-incident store the unfiltered search returns
exactly the stored incidents. -/
theorem C4_witness :
    oneMistakeDB.mistakes.length ≤ 50 ∧
    ∀ m, m ∈ search_mistakes oneMistakeDB ⟨none, none, none, none⟩ ↔
      m ∈ oneMistakeDB.mistakes :=
  ⟨by decide,
   (C4_search_cap_and_order oneMistakeDB ⟨none, none, none, none⟩).2.2
     (by decide)⟩

/-- Claim C5 (status: confirmed).  A purely numeric text filter matches an
incident exactly when the description contains it or the id equals its numeric
value; a non-numeric text filter matches exactly on the description — the id
comparison is then against the sentinel `-1`, which no id can equal. -/
theorem C5_text_filter (t : String) (m : Mistake) :
    (pyIsDigit t = true →
      (matchesParams ⟨none, none, none, some t⟩ m = true ↔
        likeMatch t m.description = true ∨ m.id = (t.toNat?).getD 0)) ∧
    (pyIsDigit t = false →
      (matchesParams ⟨none, none, none, some t⟩ m = true ↔
        likeMatch t m.description = true)) := by
  constructor
  · intro hd
    simp only [matchesParams, sqlTextToIdParam, hd, if_pos, Bool.true_and,
      Bool.or_eq_true, beq_iff_eq, Nat.cast_inj]
  · intro hd
    have hid : ¬((m.id : Int) = -1) := by omega
    simp only [matchesParams, sqlTextToIdParam, hd, Bool.false_eq_true,
      if_neg, not_false_iff, Bool.true_and, Bool.or_eq_true, beq_iff_eq, hid,
      or_false]

/-- Claim C5, witness: the digit filter "7" applied to an incident with id 7
and the non-digit filter "x" applied to the same incident. -/
theorem C5_witness :
    pyIsDigit "7" = true ∧
    (matchesParams ⟨none, none, none, some "7"⟩
        ⟨7, "a", "desc", 0, 1, false⟩ = true ↔
      likeMatch "7" "desc" = true ∨ (7 : Nat) = (("7" : String).toNat?).getD 0) :=
  ⟨by decide,
   (C5_text_filter "7" ⟨7, "a", "desc", 0, 1, false⟩).1 (by decide)⟩

/-- Unfolding of `delete_user` in the blocked case: some open incident is
owned by the name. -/
theorem delete_user_blocked (s : DBState) (name : String)
    (h : 0 < (s.mistakes.filter (fun m => m.user == name && !m.closed)).length) :
    delete_user s name = (s, false) := by
  simp only [delete_user]
  rw [if_pos (by omega)]

/-- Unfolding of `delete_user` in the unblocked case: no open incident is
owned by the name, so the DELETE runs. -/
theorem delete_user_unblocked (s : DBState) (name : String)
    (h : (s.mistakes.filter (fun m => m.user == name && !m.closed)).length = 0) :
    delete_user s name =
      ({ s with users := s.users.filter (fun u => u != name) },
       decide ((s.users.filter (fun u => u != name)).length <
         s.users.length)) := by
  simp only [delete_user]
  rw [if_neg (by omega)]

/-- Claim C6 (status: confirmed).  `delete_user` refuses (returns `false`,
store untouched) while the name owns an open incident; it returns `false`
when the name is not in the staff table (the DELETE affects no rows and the
store is unchanged); otherwise it removes the member and returns `true` — in
particular an existing member owning no incidents at all is always deleted
successfully. -/
theorem C6_delete_user (s : DBState) (name : String) :
    ((s.mistakes.any (fun m => m.user == name && !m.closed)) = true →
      delete_user s name = (s, false)) ∧
    (name ∉ s.users →
      (delete_user s name).2 = false ∧ (delete_user s name).1 = s) ∧
    ((s.mistakes.any (fun m => m.user == name && !m.closed)) = false →
      name ∈ s.users →
      (delete_user s name).2 = true ∧ name ∉ (delete_user s name).1.users) ∧
    ((s.mistakes.filter (fun m => m.user == name)).length = 0 →
      name ∈ s.users → (delete_user s name).2 = true) := by
  have hpos : (s.mistakes.any (fun m => m.user == name && !m.closed)) = true →
      0 < (s.mistakes.filter (fun m => m.user == name && !m.closed)).length := by
    intro h
    rcases List.any_eq_true.mp h with ⟨a, ha, hpa⟩
    exact List.length_pos.mpr
      (fun hnil => by rw [List.filter_eq_nil_iff] at hnil
                      exact hnil a ha hpa)
  have hzero : (s.mistakes.any (fun m => m.user == name && !m.closed)) = false →
      (s.mistakes.filter (fun m => m.user == name && !m.closed)).length = 0 := by
    intro h
    rw [List.length_eq_zero, List.filter_eq_nil_iff]
    intro a ha
    exact List.any_eq_false.mp h a ha
  refine ⟨?_, ?_, ?_, ?_⟩
  · intro h
    exact delete_user_blocked s name (hpos h)
  · intro hnot
    have hid : s.users.filter (fun u => u != name) = s.users :=
      List.filter_eq_self.mpr
        (fun u hu => by
          simp only [bne_iff_ne, ne_eq, decide_eq_true_eq]
          exact fun he => hnot (he ▸ hu))
    by_cases h : (s.mistakes.any (fun m => m.user == name && !m.closed)) = true
    · rw [delete_user_blocked s name (hpos h)]
      exact ⟨rfl, rfl⟩
    · rw [Bool.not_eq_true] at h
      rw [delete_user_unblocked s name (hzero h), hid]
      exact ⟨decide_eq_false (Nat.lt_irrefl _), rfl⟩
  · intro h hmem
    rw [delete_user_unblocked s name (hzero h)]
    constructor
    · exact decide_eq_true
        (length_filter_lt_of_mem_not s.users _ name hmem (by simp))
    · intro hin
      have := (List.mem_filter.mp hin).2
      simp at this
  · intro h0 hmem
    have hany : (s.mistakes.any (fun m => m.user == name && !m.closed)) = false := by
      rw [List.any_eq_false]
      intro a ha
      have hnu : ∀ a ∈ s.mistakes, ¬(a.user == name) = true := by
        rw [← List.filter_eq_nil_iff, ← List.length_eq_zero]
        exact h0
      simp only [Bool.and_eq_true, not_and]
      intro hu
      exact absurd hu (hnu a ha)
    rw [delete_user_unblocked s name (hzero hany)]
    exact decide_eq_true
      (length_filter_lt_of_mem_not s.users _ name hmem (by simp))

/-- Claim C6, witness: on the store with one staff member and no open incident
for "bob", deleting "bob" fails absent-member-wise, while deleting "alice" is
blocked by her open incident; deleting an incident-free member succeeds on a
store where "alice" has no incidents. -/
theorem C6_witness :
    (("bob" : String) ∉ oneMistakeDB.users ∧
      (delete_user oneMistakeDB "bob").2 = false) ∧
    ((oneMistakeDB.mistakes.any
        (fun m => m.user == "alice" && !m.closed)) = true ∧
      delete_user oneMistakeDB "alice" = (oneMistakeDB, false)) ∧
    ((emptyDB.mistakes.filter (fun m => m.user == "carol")).length = 0 ∧
      ("carol" : String) ∈ ({ emptyDB with users := ["carol"] } : DBState).users ∧
      (delete_user { emptyDB with users := ["carol"] } "carol").2 = true) :=
  ⟨⟨by decide, ((C6_delete_user oneMistakeDB "bob").2.1 (by decide)).1⟩,
   ⟨by decide, (C6_delete_user oneMistakeDB "alice").1 (by decide)⟩,
   ⟨by decide, by decide,
    (C6_delete_user { emptyDB with users := ["carol"] } "carol").2.2.2
      (by decide) (by decide)⟩⟩

/-- Sum of a pointwise sum of two `Nat`-valued maps splits. -/
theorem sum_map_add {α : Type} (K : List α) (f g : α → Nat) :
    (K.map (fun u => f u + g u)).sum = (K.map f).sum + (K.map g).sum := by
  induction K with
  | nil => rfl
  | cons a K ih =>
    simp only [List.map_cons, List.sum_cons, ih]
    omega

/-- Over a duplicate-free list containing `a`, the indicator of `a` sums
to one. -/
theorem sum_indicator_one {α : Type} [DecidableEq α] (a : α) :
    ∀ K : List α, K.Nodup → a ∈ K →
      (K.map (fun u => if a = u then 1 else 0)).sum = 1 := by
  intro K
  induction K with
  | nil => intro _ ha; cases ha
  | cons b K ih =>
    intro hK ha
    rcases List.mem_cons.mp ha with rfl | h
    · have hnotin : a ∉ K := (List.nodup_cons.mp hK).1
      simp only [List.map_cons, List.sum_cons, if_pos rfl]
      have hz : (K.map (fun u => if a = u then 1 else 0)).sum = 0 := by
        apply List.sum_eq_zero
        intro x hx
        rcases List.mem_map.mp hx with ⟨u, hu, rfl⟩
        rw [if_neg]
        exact fun he => hnotin (he ▸ hu)
      rw [hz]
      simp
    · have hba : ¬(a = b) := fun he => (List.nodup_cons.mp hK).1 (he ▸ h)
      simp only [List.map_cons, List.sum_cons, if_neg hba]
      rw [ih (List.nodup_cons.mp hK).2 h]

/-- Partition identity: summing, over a duplicate-free list of keys covering
every row's user, the sizes of the per-key fibers gives back the number of
rows. -/
theorem sum_filter_lengths (K : List String) :
    ∀ l : List Mistake, K.Nodup → (∀ m ∈ l, m.user ∈ K) →
      (K.map (fun u => (l.filter (fun m => m.user == u)).length)).sum =
        l.length := by
  intro l
  induction l with
  | nil =>
    intro _ _
    apply List.sum_eq_zero
    intro x hx
    rcases List.mem_map.mp hx with ⟨u, _, rfl⟩
    rfl
  | cons m l ih =>
    intro hK hmem
    have hm : m.user ∈ K := hmem m (List.mem_cons_self m l)
    have hsplit : ∀ u, ((m :: l).filter (fun m' => m'.user == u)).length =
        (if m.user = u then 1 else 0) +
          (l.filter (fun m' => m'.user == u)).length := by
      intro u
      rw [List.filter_cons]
      by_cases h : m.user = u
      · simp [h]
        omega
      · simp [h]
    calc (K.map (fun u =>
            ((m :: l).filter (fun m' => m'.user == u)).length)).sum
        = (K.map (fun u => (if m.user = u then 1 else 0) +
            (l.filter (fun m' => m'.user == u)).length)).sum := by
          congr 1
          exact List.map_congr_left (fun u _ => hsplit u)
      _ = (K.map (fun u => if m.user = u then 1 else 0)).sum +
            (K.map (fun u =>
              (l.filter (fun m' => m'.user == u)).length)).sum :=
          sum_map_add K _ _
      _ = 1 + l.length := by
          rw [sum_indicator_one m.user K hK hm,
            ih hK (fun m' h' => hmem m' (List.mem_cons_of_mem _ h'))]
      _ = (m :: l).length := by
          rw [List.length_cons]
          omega

/-- The per-user group counts of a mistake list partition it: their sum is the
total row count. -/
theorem sum_groupCounts (ms : List Mistake) :
    ((groupCounts ms).map (fun e => e.2)).sum = ms.length := by
  unfold groupCounts
  rw [List.map_map]
  have hcomp : ((fun e : String × Nat => e.2) ∘
      (fun u => (u, (ms.filter (fun m => m.user == u)).length))) =
      fun u => (ms.filter (fun m => m.user == u)).length := rfl
  rw [hcomp]
  exact sum_filter_lengths _ ms (List.nodup_dedup _)
    (fun m hm => List.mem_dedup.mpr (List.mem_map_of_mem _ hm))

/-- The top-5 ranking never sums past the total row count. -/
theorem topUsers_sum_le (ms : List Mistake) :
    ((topUsers ms).map (fun e => e.2)).sum ≤ ms.length := by
  unfold topUsers
  have hperm : List.Perm
      (((groupCounts ms).insertionSort countGe).map
        (fun e : String × Nat => e.2))
      ((groupCounts ms).map (fun e => e.2)) :=
    (List.perm_insertionSort countGe _).map _
  have hle : ((((groupCounts ms).insertionSort countGe).take 5).map
      (fun e : String × Nat => e.2)).sum ≤
      (((groupCounts ms).insertionSort countGe).map
        (fun e : String × Nat => e.2)).sum := by
    conv_rhs =>
      rw [← List.take_append_drop 5 ((groupCounts ms).insertionSort countGe)]
    rw [List.map_append, List.sum_append]
    exact Nat.le_add_right _ _
  calc ((((groupCounts ms).insertionSort countGe).take 5).map
          (fun e : String × Nat => e.2)).sum
      ≤ (((groupCounts ms).insertionSort countGe).map
          (fun e : String × Nat => e.2)).sum := hle
    _ = ((groupCounts ms).map (fun e => e.2)).sum := hperm.sum_eq
    _ = ms.length := sum_groupCounts ms

/-- With at most five distinct users among the rows, the top-5 ranking is the
whole grouped list and its counts sum exactly to the total. -/
theorem topUsers_sum_eq (ms : List Mistake)
    (h : ((ms.map (fun m => m.user)).dedup).length ≤ 5) :
    ((topUsers ms).map (fun e => e.2)).sum = ms.length := by
  unfold topUsers
  have hlen : ((groupCounts ms).insertionSort countGe).length ≤ 5 := by
    rw [List.length_insertionSort]
    unfold groupCounts
    rw [List.length_map]
    exact h
  rw [List.take_of_length_le hlen]
  have hperm : List.Perm
      (((groupCounts ms).insertionSort countGe).map
        (fun e : String × Nat => e.2))
      ((groupCounts ms).map (fun e => e.2)) :=
    (List.perm_insertionSort countGe _).map _
  rw [hperm.sum_eq]
  exact sum_groupCounts ms

/-- Claim C3, counterexample.  With six staff members owning one mistake each,
the all-time top-5 ranking (and likewise the unrestricted-window period
ranking) sums to 5 while the reported total is 6: the LIMIT 5 ranking cannot
cover a sixth offender. -/
theorem C3_counterexample :
    ¬(((get_all_stats sixUsersDB).top_users.map (fun e => e.2)).sum =
        (get_status_stats sixUsersDB).total) ∧
    ¬(((get_period_stats sixUsersDB 0).top_users.map (fun e => e.2)).sum =
        (get_period_stats sixUsersDB 0).total) := by
  constructor <;> decide

/-- Claim C3, amended.  The per-user counts of the top-5 ranking of period
stats (and of all-time stats against status-stats' total) sum to at most the
total reported for the same window, with equality whenever at most five
distinct users own incidents inside the window. -/
theorem C3_top5_sum (s : DBState) (cutoff : Nat) :
    ((get_period_stats s cutoff).top_users.map (fun e => e.2)).sum ≤
      (get_period_stats s cutoff).total ∧
    ((get_all_stats s).top_users.map (fun e => e.2)).sum ≤
      (get_status_stats s).total ∧
    ((((s.mistakes.filter (inWindow cutoff)).map
        (fun m => m.user)).dedup).length ≤ 5 →
      ((get_period_stats s cutoff).top_users.map (fun e => e.2)).sum =
        (get_period_stats s cutoff).total) ∧
    (((s.mistakes.map (fun m => m.user)).dedup).length ≤ 5 →
      ((get_all_stats s).top_users.map (fun e => e.2)).sum =
        (get_status_stats s).total) :=
  ⟨topUsers_sum_le _, topUsers_sum_le _, fun h => topUsers_sum_eq _ h,
   fun h => topUsers_sum_eq _ h⟩

/-- Claim C3, witness for the amended theorem: on the one-incident store (one
distinct user) the all-time top-5 counts sum exactly to the status total. -/
theorem C3_witness :
    ((oneMistakeDB.mistakes.map (fun m => m.user)).dedup).length ≤ 5 ∧
    ((get_all_stats oneMistakeDB).top_users.map (fun e => e.2)).sum =
      (get_status_stats oneMistakeDB).total :=
  ⟨by decide, (C3_top5_sum oneMistakeDB 0).2.2.2 (by decide)⟩

/-- Every key of the grouped first pass of `get_mistake_stats` is the user of
some mistake row. -/
theorem mistakeGroups_key_mem (s : DBState) (e : String × MistakeStats)
    (he : e ∈ mistakeGroups s) : e.1 ∈ s.mistakes.map (fun m => m.user) := by
  rcases List.mem_filterMap.mp he with ⟨u, hu, hsome⟩
  by_cases h : u = ""
  · rw [h] at hsome
    simp at hsome
  · rw [if_neg h] at hsome
    cases Option.some.inj hsome
    exact List.mem_dedup.mp ((List.mem_insertionSort _).mp hu)

/-- Claim C8 (status: confirmed).  Both per-user aggregations surface every
known staff member, and a member with zero incidents appears with every count
field equal to the number 0 (never absent): `get_users_stats` by left-join
semantics, `get_mistake_stats` by its second pass that fills in missing users
with explicit zeros. -/
theorem C8_every_member_zero_counts (s : DBState) :
    ∀ u ∈ s.users,
      (∃ row ∈ get_users_stats s, row.name = u) ∧
      (∃ e ∈ get_mistake_stats s, e.1 = u) ∧
      ((s.mistakes.filter (fun m => m.user == u)).length = 0 →
        (⟨u, 0, 0, 0⟩ : UserStatsRow) ∈ get_users_stats s ∧
        (u, (⟨0, 0, 0⟩ : MistakeStats)) ∈ get_mistake_stats s) := by
  intro u hu
  have hsorted : u ∈ s.users.dedup.insertionSort (fun a b => a ≤ b) :=
    (List.mem_insertionSort _).mpr (List.mem_dedup.mpr hu)
  refine ⟨?_, ?_, ?_⟩
  · exact ⟨_, List.mem_map_of_mem _ hsorted, rfl⟩
  · by_cases hg : (mistakeGroups s).any (fun e => e.1 == u) = true
    · rcases List.any_eq_true.mp hg with ⟨e, he, hek⟩
      exact ⟨e, List.mem_append_left _ he, by simpa using hek⟩
    · rw [Bool.not_eq_true] at hg
      have hfil : u ∈ s.users.filter
          (fun u' => !((mistakeGroups s).any (fun e => e.1 == u'))) :=
        List.mem_filter.mpr ⟨hu, by rw [hg]; rfl⟩
      exact ⟨(u, ⟨0, 0, 0⟩),
        List.mem_append_right _ (List.mem_map_of_mem _ hfil), rfl⟩
  · intro hz
    have hfe : s.mistakes.filter (fun m => m.user == u) = [] :=
      List.length_eq_zero.mp hz
    constructor
    · have hval : (fun u' =>
          let ms := s.mistakes.filter (fun m => m.user == u')
          (⟨u', countActive ms, countClosed ms, ms.length⟩ : UserStatsRow)) u =
          ⟨u, 0, 0, 0⟩ := by
        show (⟨u, countActive (s.mistakes.filter (fun m => m.user == u)),
          countClosed (s.mistakes.filter (fun m => m.user == u)),
          (s.mistakes.filter (fun m => m.user == u)).length⟩ : UserStatsRow) =
          ⟨u, 0, 0, 0⟩
        rw [hfe]
        rfl
      exact List.mem_map.mpr ⟨u, hsorted, hval⟩
    · have hnkey : u ∉ s.mistakes.map (fun m => m.user) := by
        intro hmap
        rcases List.mem_map.mp hmap with ⟨m, hm, hmu⟩
        have : m ∈ s.mistakes.filter (fun m' => m'.user == u) :=
          List.mem_filter.mpr ⟨hm, by simp [hmu]⟩
        rw [hfe] at this
        cases this
      have hany : (mistakeGroups s).any (fun e => e.1 == u) = false := by
        rw [List.any_eq_false]
        intro e he
        intro hek
        exact hnkey ((beq_iff_eq.mp hek) ▸ mistakeGroups_key_mem s e he)
      have hfil : u ∈ s.users.filter
          (fun u' => !((mistakeGroups s).any (fun e => e.1 == u'))) :=
        List.mem_filter.mpr ⟨hu, by rw [hany]; rfl⟩
      exact List.mem_append_right _ (List.mem_map_of_mem _ hfil)

/-- Claim C8, witness: a store whose only staff member "dave" owns no
incidents reports him in both aggregations with all-zero counts. -/
theorem C8_witness :
    ("dave" : String) ∈ (⟨["dave"], [], [], 1⟩ : DBState).users ∧
    ((⟨["dave"], [], [], 1⟩ : DBState).mistakes.filter
        (fun m => m.user == "dave")).length = 0 ∧
    ((⟨"dave", 0, 0, 0⟩ : UserStatsRow) ∈
        get_users_stats ⟨["dave"], [], [], 1⟩ ∧
      ("dave", (⟨0, 0, 0⟩ : MistakeStats)) ∈
        get_mistake_stats ⟨["dave"], [], [], 1⟩) :=
  ⟨by decide, by decide,
   (C8_every_member_zero_counts ⟨["dave"], [], [], 1⟩ "dave"
      (by decide)).2.2 (by decide)⟩

end Bazabot
